import Mathlib

/-!
Verification of the session-orchestration core of the Biblical Journeys
interactive-story application, against its natural-language specification.

The development shallowly embeds the relevant TypeScript sources:

* `src/utils/retryWithBackoff.ts`   — exponential backoff retrier
* `src/utils/mediaCache.ts`         — content-addressed media cache
* `src/utils/audioCache.ts`         — content-addressed audio cache
* `src/services/geminiService.ts`   — narrative client with degraded fallback
* `src/services/falService.ts`      — secondary (FAL) image provider
* `src/services/storageService.ts`  — quota-aware session store
* `src/components/StoryPlayer.tsx`  — turn loop (`fetchNextSegment`), clip
  gating, loop detection, re-entrancy guard

Asynchronous operations are modelled as explicit state passing; an async
operation that can fail is a value of `Except`.  The single-threaded event
loop of the source means each `await`-free block runs atomically, so a
whole handler is one Lean function.  `Math.random()` is modelled as an
explicit stream of rationals in `[-1, 1]`, wall-clock time as an explicit
`now : Nat` parameter, and binary blobs as `String` payloads.
-/

/-! ## Backoff retrier (`src/utils/retryWithBackoff.ts`) -/

/-- Model of a JavaScript error value, with the `name` and `message`
fields that `shouldRetry` predicates inspect. -/
structure JsError where
  name : String
  message : String
deriving DecidableEq, Repr

/-- JavaScript `haystack.includes(needle)`: substring containment. -/
def strIncludes (haystack needle : String) : Bool :=
  (List.range (haystack.length + 1)).any
    fun i => needle.toList.isPrefixOf (haystack.toList.drop i)

/-- JavaScript `s.toLowerCase()` (character-wise, as in the source's
ASCII data). -/
def strToLower (s : String) : String :=
  ⟨s.data.map Char.toLower⟩

/-- JavaScript `s.trim()`: strip whitespace from both ends. -/
def strTrim (s : String) : String :=
  ⟨((s.data.dropWhile Char.isWhitespace).reverse.dropWhile
      Char.isWhitespace).reverse⟩

/-- `RetryOptions` of `retryWithBackoff.ts` (all fields required, i.e. the
result of merging with `DEFAULT_OPTIONS`).  Delays are rationals (ms). -/
structure RetryOptions (ε : Type) where
  maxRetries : Nat
  initialDelayMs : ℚ
  maxDelayMs : ℚ
  shouldRetry : ε → Bool

/-- `DEFAULT_OPTIONS.shouldRetry` from `retryWithBackoff.ts`: quota and
configuration errors are not retryable, everything else is. -/
def defaultShouldRetry (e : JsError) : Bool :=
  if e.name = "QuotaExceededError" ∨ e.name = "FalConfigurationError"
      ∨ strIncludes e.message "quota" ∨ strIncludes e.message "configuration"
      ∨ strIncludes e.message "API key" then
    false
  else
    true

/-- `DEFAULT_OPTIONS` from `retryWithBackoff.ts`. -/
def DEFAULT_OPTIONS : RetryOptions JsError :=
  { maxRetries := 3, initialDelayMs := 1000, maxDelayMs := 30000,
    shouldRetry := defaultShouldRetry }

/-- `FAL_RETRY_CONFIG.shouldRetry` from `retryWithBackoff.ts`.  The
positive branches (timeout / network / …) and the default branch both
return `true`, so the predicate coincides with the non-retryable test. -/
def falShouldRetry (e : JsError) : Bool :=
  if e.name = "QuotaExceededError" ∨ e.name = "FalConfigurationError"
      ∨ strIncludes e.message "quota" ∨ strIncludes e.message "configuration"
      ∨ strIncludes e.message "API key" then
    false
  else
    true

/-- `FAL_RETRY_CONFIG` from `retryWithBackoff.ts`. -/
def FAL_RETRY_CONFIG : RetryOptions JsError :=
  { maxRetries := 3, initialDelayMs := 2000, maxDelayMs := 30000,
    shouldRetry := falShouldRetry }

/-- `addJitter` from `retryWithBackoff.ts`:
`Math.max(0, delay + delay * 0.25 * (Math.random() * 2 - 1))`, with the
value of `Math.random() * 2 - 1` passed in as `r ∈ [-1, 1]`. -/
def addJitter (delay r : ℚ) : ℚ :=
  max 0 (delay + delay * (1 / 4) * r)

/-- Observable outcome of a `retryWithExponentialBackoff` run: the final
result (`.ok` or the rethrown error), the number of times the operation
was invoked, and the sequence of jittered sleep delays. -/
structure RetryTrace (ε α : Type) where
  result : Except ε α
  invocations : Nat
  delays : List ℚ

/-- One iteration of the `for attempt in 0..maxRetries` loop of
`retryWithExponentialBackoff`.  `op n` is the outcome of the `n`-th
invocation of the operation, `rand n` the `Math.random() * 2 - 1` draw
used for the `n`-th sleep.  `fuel` counts the loop iterations still
allowed and is always called with `fuel = maxRetries - attempt`, so the
`fuel = 0` case is exactly the final attempt (whose failure is
rethrown). -/
def retryGo (cfg : RetryOptions ε) (op : Nat → Except ε α) (rand : Nat → ℚ) :
    Nat → Nat → RetryTrace ε α
  | attempt, 0 =>
    match op attempt with
    | .ok a => ⟨.ok a, 1, []⟩
    | .error e => ⟨.error e, 1, []⟩
  | attempt, fuel + 1 =>
    match op attempt with
    | .ok a => ⟨.ok a, 1, []⟩
    | .error e =>
      if cfg.shouldRetry e = false then
        ⟨.error e, 1, []⟩
      else if attempt = cfg.maxRetries then
        ⟨.error e, 1, []⟩
      else
        let baseDelay := cfg.initialDelayMs * 2 ^ attempt
        let delay := min baseDelay cfg.maxDelayMs
        let jitteredDelay := addJitter delay (rand attempt)
        let rest := retryGo cfg op rand (attempt + 1) fuel
        ⟨rest.result, rest.invocations + 1, jitteredDelay :: rest.delays⟩

/-- `retryWithExponentialBackoff` from `retryWithBackoff.ts`. -/
def retryWithExponentialBackoff (cfg : RetryOptions ε) (op : Nat → Except ε α)
    (rand : Nat → ℚ) : RetryTrace ε α :=
  retryGo cfg op rand 0 cfg.maxRetries

/-- Retry configuration used for the C3 scenario: `maxRetries = 3` with
the default numeric parameters and an error that is always classified
retryable ("a permanently-failing retryable operation"). -/
def retryCexOptions : RetryOptions Nat :=
  { maxRetries := 3, initialDelayMs := 1000, maxDelayMs := 30000,
    shouldRetry := fun _ => true }

/-- The C3 scenario: the `n`-th invocation fails with error `n`; the
first random draw is `-1` (i.e. `Math.random() = 0`) and all later draws
are `9/10`. -/
def retryCexTrace : RetryTrace Nat Unit :=
  retryWithExponentialBackoff retryCexOptions (fun n => .error n)
    (fun n => if n = 0 then -1 else 9 / 10)

/-! ## Generation caches (`src/utils/mediaCache.ts`, `src/utils/audioCache.ts`)

Both caches are IndexedDB object stores keyed by a composite string key,
with a `by-timestamp` index.  The store is modelled as an association
list `List (String × α)` of key/entry pairs; `getAllFromIndex` is
modelled by sorting the values by timestamp (the index's order). -/

/-- `MediaCacheEntry` from `src/types.ts` / `mediaCache.ts`; the binary
`Blob` payload is modelled as a `String`. -/
structure MediaCacheEntry where
  prompt : String
  mediaBlob : String
  model : String
  duration : Nat
  timestamp : Nat
  mediaType : String
deriving DecidableEq, Repr

/-- `AudioCacheEntry` from `src/types.ts` / `audioCache.ts`. -/
structure AudioCacheEntry where
  text : String
  audioBlob : String
  voiceURI : String
  speed : ℚ
  timestamp : Nat
  provider : String
deriving DecidableEq, Repr

/-- An IndexedDB object store: key/value pairs with unique keys. -/
abbrev CacheDb (α : Type) := List (String × α)

/-- `db.put(STORE_NAME, entry, key)` — upsert of `key`. -/
def dbPut (db : CacheDb α) (k : String) (e : α) : CacheDb α :=
  db.filter (fun p => p.1 ≠ k) ++ [(k, e)]

/-- `db.delete(STORE_NAME, key)`. -/
def dbDelete (db : CacheDb α) (k : String) : CacheDb α :=
  db.filter (fun p => p.1 ≠ k)

/-- `db.getAllFromIndex(STORE_NAME, 'by-timestamp')`: all entries in
ascending creation-timestamp order. -/
def byTimestamp (ts : α → Nat) (db : CacheDb α) : List α :=
  (db.map Prod.snd).mergeSort (fun a b => decide (ts a ≤ ts b))

/-- `generateCacheKey` from `mediaCache.ts`:
`"${mediaType}:${model}:${duration}:${normalizedPrompt}"` where the
prompt is trimmed and lowercased. -/
def generateMediaCacheKey (prompt model : String) (duration : Nat)
    (mediaType : String) : String :=
  mediaType ++ ":" ++ model ++ ":" ++ toString duration ++ ":"
    ++ strToLower (strTrim prompt)

/-- The composite key a media entry was stored under. -/
def MediaCacheEntry.key (e : MediaCacheEntry) : String :=
  generateMediaCacheKey e.prompt e.model e.duration e.mediaType

/-- `generateCacheKey` from `audioCache.ts`:
`"${provider}:${voiceURI}:${speed}:${normalized}"`. -/
def generateAudioCacheKey (text voiceURI : String) (speed : ℚ)
    (provider : String) : String :=
  provider ++ ":" ++ voiceURI ++ ":" ++ toString speed ++ ":"
    ++ strToLower (strTrim text)

/-- The composite key an audio entry was stored under. -/
def AudioCacheEntry.key (e : AudioCacheEntry) : String :=
  generateAudioCacheKey e.text e.voiceURI e.speed e.provider

/-- `MAX_CACHE_AGE_MS` of `mediaCache.ts` (30 days). -/
def MEDIA_MAX_CACHE_AGE_MS : Nat := 30 * 24 * 60 * 60 * 1000

/-- `MAX_CACHE_ENTRIES` of `mediaCache.ts`. -/
def MEDIA_MAX_CACHE_ENTRIES : Nat := 50

/-- `MAX_CACHE_AGE_MS` of `audioCache.ts` (7 days). -/
def AUDIO_MAX_CACHE_AGE_MS : Nat := 7 * 24 * 60 * 60 * 1000

/-- `MAX_CACHE_ENTRIES` of `audioCache.ts`. -/
def AUDIO_MAX_CACHE_ENTRIES : Nat := 100

/-- `cleanupCache` (identical in `mediaCache.ts` and `audioCache.ts`,
generic over the entry type, its stored key, and the kind's limits):
first delete every entry whose age exceeds `maxAge`, then, if the count
still exceeds `maxEntries`, delete entries oldest-first until within
budget.  Deletion is by the key regenerated from the entry's own fields,
exactly as in the source. -/
def cleanupCacheG (key : α → String) (ts : α → Nat) (maxAge maxEntries : Nat)
    (db : CacheDb α) (now : Nat) : CacheDb α :=
  let allEntries := byTimestamp ts db
  let db1 := allEntries.foldl
    (fun d e => if maxAge < now - ts e then dbDelete d (key e) else d) db
  let remaining := byTimestamp ts db1
  if maxEntries < remaining.length then
    (remaining.take (remaining.length - maxEntries)).foldl
      (fun d e => dbDelete d (key e)) db1
  else
    db1

/-- `cacheMediaBlob` from `mediaCache.ts`: store the blob under its
composite key (creation timestamp `now`), then run `cleanupCache`. -/
def cacheMediaBlob (db : CacheDb MediaCacheEntry) (now : Nat)
    (prompt mediaBlob model : String) (duration : Nat) (mediaType : String) :
    CacheDb MediaCacheEntry :=
  let k := generateMediaCacheKey prompt model duration mediaType
  let entry : MediaCacheEntry :=
    ⟨prompt, mediaBlob, model, duration, now, mediaType⟩
  cleanupCacheG MediaCacheEntry.key MediaCacheEntry.timestamp
    MEDIA_MAX_CACHE_AGE_MS MEDIA_MAX_CACHE_ENTRIES (dbPut db k entry) now

/-- `getCachedMediaBlob` from `mediaCache.ts`: look the key up; a hit
older than the max age is deleted and reported as a miss.  Returns the
result together with the possibly-updated store. -/
def getCachedMediaBlob (db : CacheDb MediaCacheEntry) (now : Nat)
    (prompt model : String) (duration : Nat) (mediaType : String) :
    Option String × CacheDb MediaCacheEntry :=
  let k := generateMediaCacheKey prompt model duration mediaType
  match db.lookup k with
  | none => (none, db)
  | some e =>
    if MEDIA_MAX_CACHE_AGE_MS < now - e.timestamp then
      (none, dbDelete db k)
    else
      (some e.mediaBlob, db)

/-- `cacheAudioBlob` from `audioCache.ts`. -/
def cacheAudioBlob (db : CacheDb AudioCacheEntry) (now : Nat)
    (text audioBlob voiceURI : String) (speed : ℚ) (provider : String) :
    CacheDb AudioCacheEntry :=
  let k := generateAudioCacheKey text voiceURI speed provider
  let entry : AudioCacheEntry := ⟨text, audioBlob, voiceURI, speed, now, provider⟩
  cleanupCacheG AudioCacheEntry.key AudioCacheEntry.timestamp
    AUDIO_MAX_CACHE_AGE_MS AUDIO_MAX_CACHE_ENTRIES (dbPut db k entry) now

/-- `getCachedAudioBlob` from `audioCache.ts`. -/
def getCachedAudioBlob (db : CacheDb AudioCacheEntry) (now : Nat)
    (text voiceURI : String) (speed : ℚ) (provider : String) :
    Option String × CacheDb AudioCacheEntry :=
  let k := generateAudioCacheKey text voiceURI speed provider
  match db.lookup k with
  | none => (none, db)
  | some e =>
    if AUDIO_MAX_CACHE_AGE_MS < now - e.timestamp then
      (none, dbDelete db k)
    else
      (some e.audioBlob, db)

/-- Well-formedness of a cache store: keys are unique and every entry is
stored under the key its own fields regenerate (which `dbPut` as used by
the two `cache*Blob` writers always establishes). -/
def CacheWF (key : α → String) (db : CacheDb α) : Prop :=
  (db.map Prod.fst).Nodup ∧ ∀ p ∈ db, p.1 = key p.2

/-! ## Secondary image provider (`src/services/falService.ts`) and the
turn loop's static-image fallback chain (`StoryPlayer.tsx`) -/

/-- `FileReader.readAsDataURL` on a blob, abstracted: an injective
encoding of the payload as a data URL. -/
def dataUrl (blob : String) : String :=
  "data:" ++ blob

/-- The prompt enhancement `generateFallbackImage` applies before both
the cache probe and the provider call. -/
def falEnhanceFallbackPrompt (prompt : String) : String :=
  prompt ++ ", cinematic, dramatic, high quality, 4k, historically accurate, biblical era, photo-realistic"

/-- The fingerprint under which `generateFallbackImage` caches: it is a
function of the original request's prompt only (plus the fixed model id,
duration 0 and kind `image`). -/
def mediaFingerprint (prompt : String) : String :=
  generateMediaCacheKey (falEnhanceFallbackPrompt prompt) "fal-ai/flux/dev" 0 "image"

/-- Outcome of one `generateFallbackImage` call: the data URL or error,
the media-cache store afterwards, and how many times the FAL provider
was actually invoked. -/
structure FalImageResult where
  result : Except JsError String
  db : CacheDb MediaCacheEntry
  providerCalls : Nat

/-- `generateFallbackImage` from `falService.ts`: configuration check,
cache probe under the enhanced prompt, retried provider call on a miss,
write-back of the fresh payload under the same key, data-URL
conversion.  `op n` is the outcome of the `n`-th provider invocation
(`client.subscribe` + response validation + fetch of the image). -/
def generateFallbackImage (configured : Bool)
    (op : Nat → Except JsError String) (rand : Nat → ℚ)
    (db : CacheDb MediaCacheEntry) (now : Nat) (prompt : String) :
    FalImageResult :=
  if ¬ configured then
    ⟨.error ⟨"FalConfigurationError",
      "FAL.ai is not configured. Please set VITE_FAL_API_KEY in your environment variables."⟩,
     db, 0⟩
  else
    let enhancedPrompt := falEnhanceFallbackPrompt prompt
    match getCachedMediaBlob db now enhancedPrompt "fal-ai/flux/dev" 0 "image" with
    | (some cachedBlob, db1) => ⟨.ok (dataUrl cachedBlob), db1, 0⟩
    | (none, db1) =>
      let t := retryWithExponentialBackoff FAL_RETRY_CONFIG op rand
      match t.result with
      | .error e => ⟨.error e, db1, t.invocations⟩
      | .ok imageBlob =>
        let db2 := cacheMediaBlob db1 now enhancedPrompt imageBlob
          "fal-ai/flux/dev" 0 "image"
        ⟨.ok (dataUrl imageBlob), db2, t.invocations⟩

/-- The fixed placeholder image of `StoryPlayer.tsx`. -/
def PLACEHOLDER_IMAGE_URL : String :=
  "https://images.unsplash.com/photo-1506905925346-21bda4d32df4?w=1280&h=720&fit=crop"

/-- Outcome of the turn loop's static-image step: the image attached to
the segment, the media-cache store afterwards, the number of FAL
provider invocations, and the advisory notification (if any). -/
structure ImageAttemptResult where
  imageUrl : String
  db : CacheDb MediaCacheEntry
  falCalls : Nat
  fallbackNotification : Option String

/-- The static-image generation step of `fetchNextSegment`
(`StoryPlayer.tsx`): try the primary (Gemini) provider; on failure, if
the FAL fallback is enabled in settings and FAL is configured, call
`generateFallbackImage`; if that also fails — or the fallback is
disabled/unconfigured — resolve to the fixed placeholder. -/
def staticImageAttempt (gemini : Except JsError String)
    (useFalFallback falConfigured : Bool)
    (falOp : Nat → Except JsError String) (rand : Nat → ℚ)
    (db : CacheDb MediaCacheEntry) (now : Nat) (imagePrompt : String) :
    ImageAttemptResult :=
  match gemini with
  | .ok url => ⟨url, db, 0, none⟩
  | .error _ =>
    if useFalFallback && falConfigured then
      match generateFallbackImage falConfigured falOp rand db now imagePrompt with
      | ⟨.ok url, db1, n⟩ =>
        ⟨url, db1, n, some "Image generated using fal.ai fallback (Gemini failed)"⟩
      | ⟨.error _, db1, n⟩ =>
        ⟨PLACEHOLDER_IMAGE_URL, db1, n,
         some "Both Gemini and fal.ai failed - using placeholder image"⟩
    else
      ⟨PLACEHOLDER_IMAGE_URL, db, 0,
       some (if ¬ falConfigured then
              "Gemini failed - fal.ai not configured (using placeholder)"
            else
              "Gemini failed - fal.ai fallback disabled in Settings (using placeholder)")⟩

/-! ## JSON values, `JSON.stringify` and `JSON.parse`

`storageService.ts` serializes progress with `JSON.stringify` and reads
it back with `JSON.parse`; whether `JSON.parse` throws on a stored blob
decides which branch `loadAllProgress` takes, so both are modelled
concretely.  The parser handles exactly the grammar our stringifier
emits (no insignificant whitespace, `\"`/`\\` string escapes,
non-negative integers), which covers every blob the store can hold. -/

/-- A JSON value.  JavaScript `undefined` is modelled as the *absence*
of an object field, matching `JSON.stringify` dropping such fields. -/
inductive Jval where
  | jnull : Jval
  | jbool : Bool → Jval
  | jnum : Nat → Jval
  | jstr : String → Jval
  | jarr : List Jval → Jval
  | jobj : List (String × Jval) → Jval

/-- String escaping used by `JSON.stringify` (quotes and backslashes;
the only escapes our data can need). -/
def escapeChar (c : Char) : List Char :=
  if c = '"' ∨ c = '\\' then ['\\', c] else [c]

/-- Escape a whole string. -/
def escapeString (s : String) : String :=
  ⟨s.data.flatMap escapeChar⟩

mutual

/-- `JSON.stringify` (no whitespace, insertion-ordered fields). -/
def Jval.stringify : Jval → String
  | .jnull => "null"
  | .jbool true => "true"
  | .jbool false => "false"
  | .jnum n => toString n
  | .jstr s => "\"" ++ escapeString s ++ "\""
  | .jarr elems => "[" ++ String.intercalate "," (stringifyList elems) ++ "]"
  | .jobj fields =>
    "\x7b" ++ String.intercalate "," (stringifyFields fields) ++ "\x7d"

/-- Stringify array elements. -/
def stringifyList : List Jval → List String
  | [] => []
  | v :: vs => v.stringify :: stringifyList vs

/-- Stringify object fields. -/
def stringifyFields : List (String × Jval) → List String
  | [] => []
  | (k, v) :: fs =>
    ("\"" ++ escapeString k ++ "\":" ++ v.stringify) :: stringifyFields fs

end

/-- Digits to a natural number. -/
def digitsToNat (ds : List Char) : Nat :=
  ds.foldl (fun n c => 10 * n + (c.toNat - 48)) 0

/-- Parse the remainder of a JSON string literal (after the opening
quote), un-escaping `\"` and `\\`. -/
def parseStrAux : Nat → List Char → List Char → Option (String × List Char)
  | 0, _, _ => none
  | _ + 1, acc, '"' :: rest => some (⟨acc.reverse⟩, rest)
  | fuel + 1, acc, '\\' :: c :: rest => parseStrAux fuel (c :: acc) rest
  | fuel + 1, acc, c :: rest => parseStrAux fuel (c :: acc) rest
  | _ + 1, _, [] => none

mutual

/-- Recursive-descent `JSON.parse` body; `fuel` bounds the recursion
depth (any fuel of at least the input length suffices). -/
def parseVal : Nat → List Char → Option (Jval × List Char)
  | 0, _ => none
  | _ + 1, 'n' :: 'u' :: 'l' :: 'l' :: rest => some (.jnull, rest)
  | _ + 1, 't' :: 'r' :: 'u' :: 'e' :: rest => some (.jbool true, rest)
  | _ + 1, 'f' :: 'a' :: 'l' :: 's' :: 'e' :: rest => some (.jbool false, rest)
  | fuel + 1, '"' :: rest =>
    match parseStrAux (fuel + 1) [] rest with
    | some (s, rest') => some (.jstr s, rest')
    | none => none
  | fuel + 1, '[' :: rest =>
    (match rest with
    | ']' :: rest' => some (.jarr [], rest')
    | _ =>
      match parseArrayItems fuel rest with
      | some (vs, rest') => some (.jarr vs, rest')
      | none => none)
  | fuel + 1, '\x7b' :: rest =>
    (match rest with
    | '\x7d' :: rest' => some (.jobj [], rest')
    | _ =>
      match parseObjItems fuel rest with
      | some (fs, rest') => some (.jobj fs, rest')
      | none => none)
  | _ + 1, c :: rest =>
    if c.isDigit then
      let ds := (c :: rest).takeWhile Char.isDigit
      some (.jnum (digitsToNat ds), (c :: rest).dropWhile Char.isDigit)
    else
      none
  | _ + 1, [] => none

/-- Parse `value (',' value)* ']'`. -/
def parseArrayItems : Nat → List Char → Option (List Jval × List Char)
  | 0, _ => none
  | fuel + 1, cs =>
    match parseVal fuel cs with
    | none => none
    | some (v, rest) =>
      match rest with
      | ',' :: rest' =>
        (match parseArrayItems fuel rest' with
        | some (vs, rest'') => some (v :: vs, rest'')
        | none => none)
      | ']' :: rest' => some ([v], rest')
      | _ => none

/-- Parse `'"' key '"' ':' value (',' pair)* close-brace`. -/
def parseObjItems : Nat → List Char → Option (List (String × Jval) × List Char)
  | 0, _ => none
  | fuel + 1, cs =>
    match cs with
    | '"' :: rest =>
      (match parseStrAux (fuel + 1) [] rest with
      | none => none
      | some (k, rest1) =>
        match rest1 with
        | ':' :: rest2 =>
          (match parseVal fuel rest2 with
          | none => none
          | some (v, rest3) =>
            match rest3 with
            | ',' :: rest4 =>
              (match parseObjItems fuel rest4 with
              | some (fs, rest5) => some ((k, v) :: fs, rest5)
              | none => none)
            | '\x7d' :: rest4 => some ([(k, v)], rest4)
            | _ => none)
        | _ => none)
    | _ => none

end

/-- `JSON.parse`: succeeds exactly when the whole input is one JSON
value. -/
def jsonParse (s : String) : Option Jval :=
  match parseVal (s.length + 2) s.data with
  | some (v, []) => some v
  | _ => none

/-! ## Quota-aware session store (`src/services/storageService.ts`)

`localStorage` is modelled as the current value under the progress key
(`Option String`) plus a simulated capacity: `setItem` throws a
`QuotaExceededError` exactly when the value exceeds the capacity.  The
in-memory `allProgress` object (the result of `JSON.parse`) is carried
as the parsed `Jval` object fields, since nothing in the source
re-validates its shape after parsing. -/

/-- `StorySegment` from `src/types.ts`: optional fields model
TypeScript's optional (possibly-`undefined`) properties. -/
structure StorySegment where
  type : String
  text : String
  imageUrl : Option String := none
  gifUrl : Option String := none
  isLoadingImage : Option Bool := none
  isLoadingGif : Option Bool := none
deriving DecidableEq, Repr

/-- `StoryProgress` from `src/types.ts`. -/
structure StoryProgress where
  storyId : String
  segments : List StorySegment
  currentChoices : List String
  storyHistory : List String
  userChoiceCount : Nat
  isCompleted : Bool
  completionDate : Option Nat := none
  currentEnvironment : String
  lastUpdated : Nat
deriving DecidableEq, Repr

/-- The argument of `saveStoryProgress` (a `StoryProgress` without
`storyId` and `lastUpdated`, which the function fills in). -/
structure ProgressInput where
  segments : List StorySegment
  currentChoices : List String
  storyHistory : List String
  userChoiceCount : Nat
  isCompleted : Bool
  completionDate : Option Nat := none
  currentEnvironment : String
deriving DecidableEq, Repr

/-- Fields of a JSON object (JavaScript `Object.entries`; primitives
have none). -/
def Jval.objFields : Jval → List (String × Jval)
  | .jobj fs => fs
  | _ => []

/-- JavaScript property access `o[k]`: `none` models `undefined`. -/
def jLookup (j : Jval) (k : String) : Option Jval :=
  j.objFields.lookup k

/-- JavaScript falsiness of a JSON value. -/
def jFalsy : Jval → Bool
  | .jnull => true
  | .jbool false => true
  | .jnum 0 => true
  | .jstr "" => true
  | _ => false

/-- JavaScript `o[k] || d`. -/
def jGetOr (j : Jval) (k : String) (d : Jval) : Jval :=
  match jLookup j k with
  | none => d
  | some v => if jFalsy v then d else v

/-- JavaScript `o[k]?.slice(-n) || []` for an array-valued field. -/
def jSliceLastOr (j : Jval) (k : String) (n : Nat) : Jval :=
  match jLookup j k with
  | some (.jarr xs) => .jarr (xs.drop (xs.length - n))
  | _ => .jarr []

/-- Property update `o[k] = v` (in place when present, appended
otherwise, as JavaScript preserves insertion order). -/
def setEntry (l : List (String × Jval)) (k : String) (v : Jval) :
    List (String × Jval) :=
  if l.any (fun p => p.1 = k) then
    l.map (fun p => if p.1 = k then (k, v) else p)
  else
    l ++ [(k, v)]

/-- Encode an in-memory `StorySegment` the way `JSON.stringify` sees it
(absent optional fields are dropped). -/
def segmentToJson (s : StorySegment) : Jval :=
  .jobj ([("type", .jstr s.type), ("text", .jstr s.text)]
    ++ (match s.imageUrl with | some u => [("imageUrl", .jstr u)] | none => [])
    ++ (match s.gifUrl with | some u => [("gifUrl", .jstr u)] | none => [])
    ++ (match s.isLoadingImage with
        | some b => [("isLoadingImage", .jbool b)] | none => [])
    ++ (match s.isLoadingGif with
        | some b => [("isLoadingGif", .jbool b)] | none => []))

/-- Encode a list of strings. -/
def strListJson (l : List String) : Jval :=
  .jarr (l.map .jstr)

/-- Encode a `StoryProgress` the way `JSON.stringify` sees it. -/
def progressToJson (p : StoryProgress) : Jval :=
  .jobj ([("storyId", .jstr p.storyId),
      ("segments", .jarr (p.segments.map segmentToJson)),
      ("currentChoices", strListJson p.currentChoices),
      ("storyHistory", strListJson p.storyHistory),
      ("userChoiceCount", .jnum p.userChoiceCount),
      ("isCompleted", .jbool p.isCompleted)]
    ++ (match p.completionDate with
        | some d => [("completionDate", .jnum d)] | none => [])
    ++ [("currentEnvironment", .jstr p.currentEnvironment),
        ("lastUpdated", .jnum p.lastUpdated)])

/-- The per-segment part of `compressProgressData`:
`{t: type, txt: text, img: imageUrl, gif: gifUrl}` with
`undefined`-valued properties dropped by `JSON.stringify`. -/
def compressSegment (s : Jval) : Jval :=
  .jobj ((match jLookup s "type" with | some v => [("t", v)] | none => [])
    ++ (match jLookup s "text" with | some v => [("txt", v)] | none => [])
    ++ (match jLookup s "imageUrl" with | some v => [("img", v)] | none => [])
    ++ (match jLookup s "gifUrl" with | some v => [("gif", v)] | none => []))

/-- The per-story part of `compressProgressData`: short field names,
only the last 50 history entries, loading flags dropped. -/
def compressProgress (progress : Jval) : Jval :=
  .jobj ([("s", match jLookup progress "segments" with
        | some (.jarr xs) => Jval.jarr (xs.map compressSegment)
        | _ => Jval.jarr []),
      ("c", jGetOr progress "currentChoices" (.jarr [])),
      ("h", jSliceLastOr progress "storyHistory" 50),
      ("u", jGetOr progress "userChoiceCount" (.jnum 0)),
      ("comp", jGetOr progress "isCompleted" (.jbool false)),
      ("env", jGetOr progress "currentEnvironment" (.jstr ""))]
    ++ (match jLookup progress "completionDate" with
        | some v => [("cd", v)] | none => [])
    ++ (match jLookup progress "lastUpdated" with
        | some v => [("lu", v)] | none => []))

/-- `compressProgressData` from `storageService.ts` (the value whose
`JSON.stringify` is written to storage). -/
def compressProgressData (allProgress : List (String × Jval)) : Jval :=
  .jobj (allProgress.map (fun p => (p.1, compressProgress p.2)))

/-- The per-segment part of `decompressProgressData`: map the short
keys back, loading flags always `false`. -/
def decompressSegment (s : Jval) : Jval :=
  .jobj ((match jLookup s "t" with | some v => [("type", v)] | none => [])
    ++ (match jLookup s "txt" with | some v => [("text", v)] | none => [])
    ++ (match jLookup s "img" with | some v => [("imageUrl", v)] | none => [])
    ++ (match jLookup s "gif" with | some v => [("gifUrl", v)] | none => [])
    ++ [("isLoadingImage", .jbool false), ("isLoadingGif", .jbool false)])

/-- The per-story part of `decompressProgressData`. -/
def decompressProgress (storyId : String) (progress : Jval) (now : Nat) :
    Jval :=
  .jobj ([("storyId", .jstr storyId),
      ("segments", match jLookup progress "s" with
        | some (.jarr xs) => Jval.jarr (xs.map decompressSegment)
        | _ => Jval.jarr []),
      ("currentChoices", jGetOr progress "c" (.jarr [])),
      ("storyHistory", jGetOr progress "h" (.jarr [])),
      ("userChoiceCount", jGetOr progress "u" (.jnum 0)),
      ("isCompleted", jGetOr progress "comp" (.jbool false)),
      ("currentEnvironment", jGetOr progress "env" (.jstr ""))]
    ++ (match jLookup progress "cd" with
        | some v => [("completionDate", v)] | none => [])
    ++ [("lastUpdated", jGetOr progress "lu" (.jnum now))])

/-- `decompressProgressData` from `storageService.ts`: parse, rebuild
the verbose shape; any error degrades to the empty store. -/
def decompressProgressData (compressedData : String) (now : Nat) :
    List (String × Jval) :=
  match jsonParse compressedData with
  | none => []
  | some j => j.objFields.map (fun p => (p.1, decompressProgress p.1 p.2 now))

/-- The per-story part of `cleanupOldProgressData`: completed stories
keep their last 20 segments/history entries and drop pending choices,
incomplete ones keep their last 30. -/
def cleanupOldProgress (progress : Jval) : Jval :=
  if jFalsy (jGetOr progress "isCompleted" (.jbool false)) = false then
    .jobj (setEntry (setEntry (setEntry progress.objFields
      "segments" (jSliceLastOr progress "segments" 20))
      "storyHistory" (jSliceLastOr progress "storyHistory" 20))
      "currentChoices" (.jarr []))
  else
    .jobj (setEntry (setEntry progress.objFields
      "segments" (jSliceLastOr progress "segments" 30))
      "storyHistory" (jSliceLastOr progress "storyHistory" 30))

/-- `cleanupOldProgressData` from `storageService.ts`. -/
def cleanupOldProgressData (allProgress : List (String × Jval)) :
    List (String × Jval) :=
  allProgress.map (fun p => (p.1, cleanupOldProgress p.2))

/-- `loadAllProgress` from `storageService.ts`: read the raw blob,
attempt a direct `JSON.parse`, and only if *that throws* attempt the
compressed-decode path. -/
def loadAllProgress (store : Option String) (now : Nat) :
    List (String × Jval) :=
  match store with
  | none => []
  | some saved =>
    match jsonParse saved with
    | some j => j.objFields
    | none => decompressProgressData saved now

/-- `loadStoryProgress` from `storageService.ts`:
`allProgress[storyId] || null`. -/
def loadStoryProgress (store : Option String) (now : Nat)
    (storyId : String) : Option Jval :=
  match (loadAllProgress store now).lookup storyId with
  | none => none
  | some v => if jFalsy v then none else some v

/-- `saveStoryProgress` from `storageService.ts` over the simulated
store: write the verbose encoding; on a quota rejection (value longer
than `capacity`) retry with the compressed encoding; if that is also
rejected, clean up old data and write the cleaned compressed encoding;
a final rejection is swallowed (the store is left unchanged). -/
def saveStoryProgress (store : Option String) (capacity : Nat) (now : Nat)
    (storyId : String) (progress : ProgressInput) : Option String :=
  let allProgress := loadAllProgress store now
  let storyProgress : StoryProgress :=
    { storyId := storyId, segments := progress.segments,
      currentChoices := progress.currentChoices,
      storyHistory := progress.storyHistory,
      userChoiceCount := progress.userChoiceCount,
      isCompleted := progress.isCompleted,
      completionDate := progress.completionDate,
      currentEnvironment := progress.currentEnvironment,
      lastUpdated := now }
  let allProgress1 := setEntry allProgress storyId (progressToJson storyProgress)
  let progressData := (Jval.jobj allProgress1).stringify
  if progressData.length ≤ capacity then
    some progressData
  else
    let compressedData := (compressProgressData allProgress1).stringify
    if compressedData.length ≤ capacity then
      some compressedData
    else
      let cleanedData := cleanupOldProgressData allProgress1
      let cleanedCompressed := (compressProgressData cleanedData).stringify
      if cleanedCompressed.length ≤ capacity then
        some cleanedCompressed
      else
        store

/-- C1 scenario — one narrator segment of a story in progress, as the
turn loop persists it. -/
def c1Seg : StorySegment :=
  { type := "narrator", text := "The den falls silent.",
    isLoadingImage := some false }

/-- C1 scenario — the `saveStoryProgress` argument. -/
def c1Input : ProgressInput :=
  { segments := [c1Seg],
    currentChoices := ["Pray", "Wait for dawn"],
    storyHistory := ["PROMPT: begin", "RESPONSE: ok"],
    userChoiceCount := 1,
    isCompleted := false,
    currentEnvironment := "lions den" }

/-- C1 scenario — the `StoryProgress` record `saveStoryProgress` builds
from it at time 5. -/
def c1Progress : StoryProgress :=
  { storyId := "daniel", segments := c1Input.segments,
    currentChoices := c1Input.currentChoices,
    storyHistory := c1Input.storyHistory,
    userChoiceCount := 1, isCompleted := false,
    currentEnvironment := "lions den", lastUpdated := 5 }

/-! ## Narrative client (`src/services/geminiService.ts`) and turn loop
(`src/components/StoryPlayer.tsx`)

The provider call inside `generateStorySegment` is modelled by its
outcome (`Except`): a successfully parsed structured response, or the
thrown error.  React state updates within one handler invocation are
applied sequentially (the functional-update form used by the source
makes this exact); values read from the closure (such as `segments` and
`currentEnvironment` inside the completion branch) read the
pre-invocation state, exactly as in the source. -/

/-- The provider's parsed JSON response (fields of
`storyResponseSchema`; the schema requires `narrative`, `imagePrompt`
and `choices`, the rest may be absent). -/
structure RawStoryResponse where
  narrative : String
  imagePrompt : String
  choices : Option (List String)
  lessons : Option (List String) := none
  isComplete : Option Bool := none
  location : Option String := none
deriving DecidableEq, Repr

/-- `GeminiStoryResponse` from `src/types.ts` (optional fields carry
their falsy defaults where the source reads them as booleans). -/
structure GeminiStoryResponse where
  narrative : String
  imagePrompt : String
  choices : List String
  lessons : List String
  isComplete : Bool
  isFallback : Bool
  location : Option String
  isImportantScene : Bool
deriving DecidableEq, Repr

/-- The quota-specific apologetic fallback narrative of
`generateStorySegment`. -/
def quotaFallbackNarrative : String :=
  "The storyteller pauses, catching their breath. It seems the request limit has been reached for now. Please check your API key's plan and billing details, or try again in a little while."

/-- The generic apologetic fallback narrative of
`generateStorySegment`. -/
def genericFallbackNarrative : String :=
  "An unexpected silence falls upon the land. It seems the path forward is unclear. Let's try to proceed."

/-- `generateStorySegment` from `geminiService.ts`: normalize a
successful response (defaults for missing fields, a single default
continuation choice when `choices` is empty), and convert any provider
failure into a flagged degraded response instead of throwing. -/
def generateStorySegment (outcome : Except JsError RawStoryResponse) :
    GeminiStoryResponse :=
  match outcome with
  | .ok parsed =>
    let choices0 := parsed.choices.getD []
    { narrative := parsed.narrative,
      imagePrompt := parsed.imagePrompt,
      choices := if choices0.isEmpty then ["Continue the story."] else choices0,
      lessons := parsed.lessons.getD [],
      isComplete := parsed.isComplete.getD false,
      isFallback := false,
      location := parsed.location,
      isImportantScene := false }
  | .error e =>
    { narrative :=
        if strIncludes e.message "RESOURCE_EXHAUSTED"
            || strIncludes e.message "quota" then
          quotaFallbackNarrative
        else
          genericFallbackNarrative,
      imagePrompt := "A serene, empty landscape under a cloudy sky, historically accurate.",
      choices := ["Try again..."],
      lessons := ["Patience is a virtue, especially when the path is unclear."],
      isComplete := false,
      isFallback := true,
      location := none,
      isImportantScene := false }

/-- `JSON.stringify(response)` as pushed onto the story history (the
successful-response object built by `generateStorySegment`). -/
def geminiResponseToJson (r : GeminiStoryResponse) : Jval :=
  .jobj [("narrative", .jstr r.narrative),
    ("imagePrompt", .jstr r.imagePrompt),
    ("choices", strListJson r.choices),
    ("lessons", strListJson r.lessons),
    ("isComplete", .jbool r.isComplete),
    ("location", match r.location with | some l => .jstr l | none => .jnull)]

/-- The fixed repetition markers of `detectRepetitiveContent`
(`StoryPlayer.tsx`). -/
def repetitivePhrases : List String :=
  ["What is your final choice",
   "What is your final question",
   "What is your final thought",
   "The story is complete",
   "The story is done",
   "The story is finished",
   "The story is ending",
   "The story is concluding"]

/-- The marker count of `detectRepetitiveContent`: how many phrases of
the fixed set occur in the narrative, case-insensitively. -/
def repetitiveCount (narrative : String) : Nat :=
  repetitivePhrases.foldl
    (fun count phrase =>
      count + if strIncludes (strToLower narrative) (strToLower phrase) then 1 else 0)
    0

/-- `detectRepetitiveContent` from `StoryPlayer.tsx`: three or more
markers present means the provider is likely stuck in a loop. -/
def detectRepetitiveContent (narrative : String) : Bool :=
  3 ≤ repetitiveCount narrative

/-- `EnvironmentZone` from `src/types.ts`. -/
structure EnvironmentZone where
  id : String
  name : String
  description : String
deriving DecidableEq, Repr

/-- `updateEnvironmentFromLocation` from `StoryPlayer.tsx` (together
with its call-site guard `if (response.location)`): falsy locations
leave the environment unchanged; a predefined zone matching the
location (either containing the other, case-insensitively) supplies its
description; otherwise the location itself becomes the environment. -/
def updateEnvironmentFromLocation (zones : List EnvironmentZone)
    (env : String) (location : Option String) : String :=
  match location with
  | none => env
  | some loc =>
    if loc = "" then env
    else
      match zones.find? (fun zone =>
          strIncludes (strToLower zone.id) (strToLower loc)
          || strIncludes (strToLower zone.name) (strToLower loc)
          || strIncludes (strToLower loc) (strToLower zone.id)
          || strIncludes (strToLower loc) (strToLower zone.name)) with
      | some zone => zone.description
      | none => loc

/-- The in-memory state of `StoryPlayer` touched by the turn loop:
React state plus the `storyHistory` and `isGeneratingRef` refs. -/
structure PlayerState where
  segments : List StorySegment
  isLoading : Bool
  choices : List String
  storyHistory : List String
  userChoiceCount : Nat
  currentEnvironment : String
  showCompletionModal : Bool
  isGenerating : Bool
deriving DecidableEq, Repr

/-- Observable outcome of one `fetchNextSegment` invocation: the state
afterwards, the number of narrative-provider calls made, and the
`saveStoryProgress` calls issued synchronously by the handler itself. -/
structure TurnResult where
  state : PlayerState
  narrativeCalls : Nat
  saves : List (String × ProgressInput)
deriving DecidableEq, Repr

/-- The synchronous narrative part of `fetchNextSegment`
(`StoryPlayer.tsx`): re-entrancy guard; push the prompt; await the
narrative client; on a flagged fallback pop the prompt and render a
degraded segment without touching the history; otherwise record the
exchange, update the environment, force completion on an explicit
`isComplete` or on detected repetition (persisting the completed
session), else append the narrator (and lesson) segments and surface
the new choices.  The detached media task it spawns is modelled
separately (`clipStep` / `staticImageAttempt`); the `finally` clause
clearing the guard is reflected in every exit. -/
def fetchNextSegment (storyId : String) (zones : List EnvironmentZone)
    (now : Nat) (prompt : String) (s : PlayerState)
    (outcome : Except JsError RawStoryResponse) : TurnResult :=
  if s.isGenerating then
    ⟨s, 0, []⟩
  else
    let s0 := { s with
      isGenerating := true, isLoading := true, choices := [],
      storyHistory := s.storyHistory ++ ["PROMPT: " ++ prompt] }
    let response := generateStorySegment outcome
    if response.isFallback then
      let errorSegment : StorySegment :=
        { type := "narrator", text := response.narrative,
          isLoadingImage := some false }
      ⟨{ s0 with
          storyHistory := s0.storyHistory.dropLast,
          segments := s0.segments ++ [errorSegment],
          choices := response.choices,
          isLoading := false, isGenerating := false }, 1, []⟩
    else
      let s1 := { s0 with
        storyHistory := s0.storyHistory
          ++ ["RESPONSE: " ++ (geminiResponseToJson response).stringify] }
      let envNew := updateEnvironmentFromLocation zones s1.currentEnvironment
        response.location
      let newNarratorSegment : StorySegment :=
        { type := "narrator", text := response.narrative,
          isLoadingImage := some true }
      if response.isComplete || detectRepetitiveContent response.narrative then
        ⟨{ s1 with
            currentEnvironment := envNew,
            showCompletionModal := true, isGenerating := false },
         1,
         [(storyId,
           { segments := s.segments ++ [newNarratorSegment],
             currentChoices := [],
             storyHistory := s1.storyHistory,
             userChoiceCount := s.userChoiceCount,
             isCompleted := true,
             completionDate := some now,
             currentEnvironment := s.currentEnvironment })]⟩
      else
        let lessonSegments : List StorySegment :=
          if response.lessons.length > 0 then
            [{ type := "lesson", text := (strListJson response.lessons).stringify }]
          else
            []
        ⟨{ s1 with
            currentEnvironment := envNew,
            segments := s1.segments ++ [newNarratorSegment] ++ lessonSegments,
            choices := response.choices,
            isLoading := false, isGenerating := false }, 1, []⟩

/-- The generation context `handleChoice` assembles for the next
prompt: `storyHistory.current.join('\n')`. -/
def nextPromptContext (s : PlayerState) : String :=
  String.intercalate "\n" s.storyHistory

/-- `FalSettings` from `src/types.ts`. -/
structure FalSettings where
  enabled : Bool
  sessionLimit : Nat
  currentSessionCount : Nat
  useFalFallback : Bool
deriving DecidableEq, Repr

/-- The clip gate of the detached media task in `fetchNextSegment`:
`response.isImportantScene && falSettings.enabled &&
falSettings.currentSessionCount < falSettings.sessionLimit &&
falService.isConfigured() && gifGeneratedCount < 2`. -/
def shouldGenerateGif (response : GeminiStoryResponse)
    (falSettings : FalSettings) (falConfigured : Bool)
    (gifGeneratedCount : Nat) : Bool :=
  response.isImportantScene && falSettings.enabled
    && decide (falSettings.currentSessionCount < falSettings.sessionLimit)
    && falConfigured && decide (gifGeneratedCount < 2)

/-- Observable outcome of the clip phase of the media task. -/
structure ClipStepResult where
  clipCalls : Nat
  gifUrl : Option String
  gifError : Bool
  falSettingsAfter : FalSettings
  gifGeneratedCountAfter : Nat
  proceedToStaticImage : Bool
deriving DecidableEq, Repr

/-- The clip phase of the detached media task (`StoryPlayer.tsx`): when
the gate allows it, invoke `falService.generateGIF` once; on success
attach the clip, bump the session usage counter and the per-story
count, and skip static-image generation; on failure record an advisory
error and fall through to the static image.  When the gate blocks, go
straight to the static image with no provider call. -/
def clipStep (response : GeminiStoryResponse) (falSettings : FalSettings)
    (falConfigured : Bool) (gifGeneratedCount : Nat)
    (clipOutcome : Except JsError String) : ClipStepResult :=
  if shouldGenerateGif response falSettings falConfigured gifGeneratedCount then
    match clipOutcome with
    | .ok gifUrl =>
      ⟨1, some gifUrl, false,
       { falSettings with
          currentSessionCount := falSettings.currentSessionCount + 1 },
       gifGeneratedCount + 1, false⟩
    | .error _ =>
      ⟨1, none, true, falSettings, gifGeneratedCount, true⟩
  else
    ⟨0, none, false, falSettings, gifGeneratedCount, true⟩

/-! ## Theorems -/

/-- C7 — Non-retryable short-circuit: if the first invocation fails with
an error classified non-retryable by `shouldRetry`, the retrier rethrows
exactly that error, sleeps zero times, and never invokes the operation
again. -/
theorem non_retryable_short_circuit {ε α : Type} (cfg : RetryOptions ε)
    (op : Nat → Except ε α) (rand : Nat → ℚ) (e : ε)
    (hop : op 0 = .error e) (hnr : cfg.shouldRetry e = false) :
    retryWithExponentialBackoff cfg op rand =
      ⟨.error e, 1, []⟩ := by
  unfold retryWithExponentialBackoff
  cases h : cfg.maxRetries with
  | zero => simp [retryGo, hop]
  | succ n => simp [retryGo, hop, hnr]

/-- Witness for C7 at a concrete configuration: a quota error thrown on
the first attempt under `DEFAULT_OPTIONS` short-circuits. -/
theorem non_retryable_short_circuit_witness :
    retryWithExponentialBackoff DEFAULT_OPTIONS
        (fun _ => .error (JsError.mk "QuotaExceededError" "quota hit"))
        (fun _ => 0)
      = (⟨.error (JsError.mk "QuotaExceededError" "quota hit"), 1, []⟩ :
          RetryTrace JsError Nat) :=
  non_retryable_short_circuit DEFAULT_OPTIONS _ _ _
    rfl (by decide)

/-- C3 counterexample — the ratio clause of the claim is false on the
code: with `maxRetries = 3` and a permanently-failing retryable
operation, the operation is indeed invoked 4 times and the last error is
rethrown, but with jitter draws `-1` then `9/10` the first sleep is
750 ms and the second 2450 ms, and `2450 > 2.5 × 750`, so the second
sleep delay is NOT at most 2.5 times the first sleep delay. -/
theorem retry_jitter_ratio_counterexample :
    retryCexTrace.invocations = 4 ∧
    retryCexTrace.result = .error 3 ∧
    retryCexTrace.delays = [750, 2450, 4900] ∧
    ¬ ((2450 : ℚ) ≤ 5 / 2 * 750) := by
  refine ⟨?_, ?_, ?_, by norm_num⟩
  all_goals
    norm_num [retryCexTrace, retryWithExponentialBackoff, retryGo,
      retryCexOptions, addJitter, max_def, min_def]

/-- C3 amended — Retry bound: with `maxRetries = 3`, an operation that
fails with a retryable error on every invocation is invoked exactly 4
times, the error finally thrown is the error of the 4th attempt, three
sleeps happen, and the second sleep delay is at least 1.5 times and at
most 2.5 times the configured un-jittered first delay `initialDelayMs`
(the claim's ratio holds against the base delay, not against the
already-jittered first sleep). -/
theorem retry_bound_amended {ε α : Type} (cfg : RetryOptions ε)
    (op : Nat → Except ε α) (rand : Nat → ℚ) (e : Nat → ε)
    (hmax : cfg.maxRetries = 3)
    (hop : ∀ n, op n = .error (e n))
    (hr : ∀ n, cfg.shouldRetry (e n) = true)
    (hi : 0 ≤ cfg.initialDelayMs)
    (hm : 2 * cfg.initialDelayMs ≤ cfg.maxDelayMs)
    (hrand : ∀ n, -1 ≤ rand n ∧ rand n ≤ 1) :
    (retryWithExponentialBackoff cfg op rand).invocations = 4 ∧
    (retryWithExponentialBackoff cfg op rand).result = .error (e 3) ∧
    (retryWithExponentialBackoff cfg op rand).delays.length = 3 ∧
    3 / 2 * cfg.initialDelayMs ≤
      ((retryWithExponentialBackoff cfg op rand).delays.getD 1 0) ∧
    ((retryWithExponentialBackoff cfg op rand).delays.getD 1 0) ≤
      5 / 2 * cfg.initialDelayMs := by
  have hmin : cfg.initialDelayMs * 2 ⊓ cfg.maxDelayMs =
      cfg.initialDelayMs * 2 := min_eq_left (by linarith)
  have hlo : -1 ≤ rand 1 := (hrand 1).1
  have hhi : rand 1 ≤ 1 := (hrand 1).2
  have hylo : 3 / 2 * cfg.initialDelayMs ≤
      cfg.initialDelayMs * 2 + cfg.initialDelayMs * 2 * (1 / 4) * rand 1 := by
    nlinarith [mul_le_mul_of_nonneg_left hlo hi]
  have hyhi : cfg.initialDelayMs * 2 + cfg.initialDelayMs * 2 * (1 / 4) * rand 1
      ≤ 5 / 2 * cfg.initialDelayMs := by
    nlinarith [mul_le_mul_of_nonneg_left hhi hi]
  unfold retryWithExponentialBackoff
  rw [hmax]
  simp only [retryGo, hop, hr, hmax]
  norm_num [addJitter, hmin]
  exact ⟨Or.inr hylo, by linarith, hyhi⟩

/-- Witness for the amended C3 at a concrete configuration. -/
theorem retry_bound_amended_witness :
    (retryWithExponentialBackoff retryCexOptions
        (fun n => (.error n : Except Nat Unit))
        (fun n => if n = 0 then -1 else 9 / 10)).invocations = 4 ∧
    (retryWithExponentialBackoff retryCexOptions
        (fun n => (.error n : Except Nat Unit))
        (fun n => if n = 0 then -1 else 9 / 10)).result = .error 3 := by
  have h := retry_bound_amended retryCexOptions
    (fun n => (.error n : Except Nat Unit))
    (fun n => if n = 0 then -1 else 9 / 10) (fun n => n)
    rfl (fun _ => rfl) (fun _ => rfl) (by norm_num [retryCexOptions])
    (by norm_num [retryCexOptions])
    (fun n => by
      by_cases h : n = 0
      · simp [h]
      · simp [h]
        norm_num)
  exact ⟨h.1, h.2.1⟩

/-- Deleting is a sub-collection of the original store. -/
theorem dbDelete_sublist (db : CacheDb α) (k : String) :
    (dbDelete db k).Sublist db :=
  List.filter_sublist db

/-- A pass of conditional deletions by regenerated keys acts as one
filter over the store. -/
theorem foldl_cond_delete_eq_filter (key : α → String) (cond : α → Prop)
    [DecidablePred cond] (l : List α) (db : CacheDb α) :
    l.foldl (fun d e => if cond e then dbDelete d (key e) else d) db
      = db.filter
          (fun p => decide (¬ ∃ e ∈ l, cond e ∧ p.1 = key e)) := by
  induction l generalizing db with
  | nil => simp
  | cons e l ih =>
    simp only [List.foldl_cons]
    by_cases hc : cond e
    · rw [if_pos hc, ih, dbDelete, List.filter_filter]
      apply List.filter_congr
      intro p _
      rw [← Bool.decide_and, decide_eq_decide]
      constructor
      · rintro ⟨h1, h2⟩ ⟨e', he', hce', hke'⟩
        rcases List.mem_cons.mp he' with rfl | he'
        · exact h2 hke'
        · exact h1 ⟨e', he', hce', hke'⟩
      · intro h
        refine ⟨fun ⟨e', he', hce', hke'⟩ =>
            h ⟨e', List.mem_cons_of_mem _ he', hce', hke'⟩, fun hk => ?_⟩
        exact h ⟨e, List.mem_cons_self _ _, hc, hk⟩
    · rw [if_neg hc, ih]
      apply List.filter_congr
      intro p _
      rw [decide_eq_decide]
      constructor
      · rintro h ⟨e', he', hce', hke'⟩
        rcases List.mem_cons.mp he' with rfl | he'
        · exact hc hce'
        · exact h ⟨e', he', hce', hke'⟩
      · intro h he
        obtain ⟨e', he', hce', hke'⟩ := he
        exact h ⟨e', List.mem_cons_of_mem _ he', hce', hke'⟩

/-- Well-formedness survives any filter of the store. -/
theorem cacheWF_filter (key : α → String) (db : CacheDb α)
    (q : String × α → Bool) (hwf : CacheWF key db) :
    CacheWF key (db.filter q) :=
  ⟨(hwf.1).sublist ((List.filter_sublist db).map Prod.fst),
   fun p hp => hwf.2 p (List.mem_of_mem_filter hp)⟩

/-- `dbPut` with a key regenerated from the new entry preserves
well-formedness. -/
theorem cacheWF_dbPut (key : α → String) (db : CacheDb α) (k : String)
    (e : α) (hke : k = key e) (hwf : CacheWF key db) :
    CacheWF key (dbPut db k e) := by
  have hfil := cacheWF_filter key db (fun p => decide (p.1 ≠ k)) hwf
  constructor
  · rw [dbPut, List.map_append]
    simp only [List.map_cons, List.map_nil]
    apply List.Nodup.append hfil.1 (List.nodup_singleton k)
    intro x hx hk
    rw [List.mem_singleton] at hk
    subst hk
    obtain ⟨p, hp, rfl⟩ := List.mem_map.mp hx
    have hpf := List.of_mem_filter hp
    simp at hpf
  · intro p hp
    rcases List.mem_append.mp hp with h | h
    · exact hfil.2 p h
    · rw [List.mem_singleton] at h
      subst h
      exact hke

/-- Deleting a present key from a store with unique keys removes exactly
one pair. -/
theorem dbDelete_length (db : CacheDb α) (k : String)
    (hnd : (db.map Prod.fst).Nodup) (hk : k ∈ db.map Prod.fst) :
    (dbDelete db k).length + 1 = db.length := by
  induction db with
  | nil => simp at hk
  | cons p db ih =>
    simp only [List.map_cons, List.nodup_cons] at hnd
    by_cases hpk : p.1 = k
    · have heq : dbDelete (p :: db) k = db := by
        rw [dbDelete, List.filter_cons, if_neg (by simp [hpk])]
        refine List.filter_eq_self.mpr fun q hq => ?_
        simp only [ne_eq, decide_not, Bool.not_eq_true', decide_eq_false_iff_not]
        intro hq1
        apply hnd.1
        rw [hpk, ← hq1]
        exact List.mem_map_of_mem Prod.fst hq
      rw [heq]
      simp
    · have hmem : k ∈ List.map Prod.fst db := by
        rcases List.mem_cons.mp hk with h | h
        · exact absurd h.symm hpk
        · exact h
      have heq : dbDelete (p :: db) k = p :: dbDelete db k := by
        rw [dbDelete, List.filter_cons, if_pos (by simpa using hpk)]
        rfl
      have hlen := ih hnd.2 hmem
      rw [heq]
      simp only [List.length_cons]
      omega

/-- An unconditional pass of deletions yields a sub-collection. -/
theorem foldl_delete_sublist (key : α → String) (l : List α) (db : CacheDb α) :
    (l.foldl (fun d e => dbDelete d (key e)) db).Sublist db := by
  induction l generalizing db with
  | nil => exact List.Sublist.refl db
  | cons e l ih =>
    simp only [List.foldl_cons]
    exact (ih (dbDelete db (key e))).trans (dbDelete_sublist db (key e))

/-- Well-formedness restricts to sub-collections of the store. -/
theorem cacheWF_sublist (key : α → String) {db db' : CacheDb α}
    (hsub : db'.Sublist db) (hwf : CacheWF key db) : CacheWF key db' :=
  ⟨hwf.1.sublist (hsub.map Prod.fst), fun p hp => hwf.2 p (hsub.subset hp)⟩

/-- Deleting a list of present, pairwise-distinct keys removes exactly
one pair per key. -/
theorem foldl_delete_length (key : α → String) (l : List α) (db : CacheDb α)
    (hnd : (db.map Prod.fst).Nodup)
    (hlk : (l.map key).Nodup)
    (hsub : ∀ e ∈ l, key e ∈ db.map Prod.fst) :
    (l.foldl (fun d e => dbDelete d (key e)) db).length
      = db.length - l.length := by
  induction l generalizing db with
  | nil => simp
  | cons e l ih =>
    simp only [List.foldl_cons]
    have hpres : key e ∈ db.map Prod.fst := hsub e (List.mem_cons_self e l)
    have hdel := dbDelete_length db (key e) hnd hpres
    have hnd' : ((dbDelete db (key e)).map Prod.fst).Nodup :=
      hnd.sublist ((dbDelete_sublist db (key e)).map Prod.fst)
    simp only [List.map_cons, List.nodup_cons] at hlk
    have hsub' : ∀ e' ∈ l, key e' ∈ (dbDelete db (key e)).map Prod.fst := by
      intro e' he'
      have hne : key e' ≠ key e := by
        intro h
        exact hlk.1 (h ▸ List.mem_map_of_mem key he')
      obtain ⟨p, hp, hpf⟩ :=
        List.mem_map.mp (hsub e' (List.mem_cons_of_mem _ he'))
      refine List.mem_map.mpr ⟨p, List.mem_filter.mpr ⟨hp, ?_⟩, hpf⟩
      simp only [ne_eq, decide_not, Bool.not_eq_true', decide_eq_false_iff_not]
      rw [hpf]
      exact hne
    rw [ih (dbDelete db (key e)) hnd' hlk.2 hsub']
    simp only [List.length_cons]
    omega

/-- Postcondition of `cleanupCache` on a well-formed store: afterwards
the store holds at most `maxEntries` entries, none older than `maxAge`,
and is still well-formed. -/
theorem cleanupCacheG_invariant (key : α → String) (ts : α → Nat)
    (maxAge maxEntries : Nat) (db : CacheDb α) (now : Nat)
    (hwf : CacheWF key db) :
    (cleanupCacheG key ts maxAge maxEntries db now).length ≤ maxEntries ∧
    (∀ p ∈ cleanupCacheG key ts maxAge maxEntries db now,
        now - ts p.2 ≤ maxAge) ∧
    CacheWF key (cleanupCacheG key ts maxAge maxEntries db now) := by
  have hrw := foldl_cond_delete_eq_filter key (fun e => maxAge < now - ts e)
    (byTimestamp ts db) db
  unfold cleanupCacheG
  simp only [hrw]
  set db1 := db.filter
    (fun p => decide (¬ ∃ e ∈ byTimestamp ts db, maxAge < now - ts e
        ∧ p.1 = key e)) with hdb1
  have hwf1 : CacheWF key db1 := cacheWF_filter key db _ hwf
  have hage : ∀ p ∈ db1, now - ts p.2 ≤ maxAge := by
    intro p hp
    have hmem := List.mem_of_mem_filter hp
    have hpred := List.of_mem_filter hp
    rw [decide_eq_true_eq] at hpred
    by_contra hgt
    push_neg at hgt
    refine hpred ⟨p.2, ?_, hgt, hwf.2 p hmem⟩
    exact List.mem_mergeSort.mpr (List.mem_map_of_mem Prod.snd hmem)
  have hlen1 : (byTimestamp ts db1).length = db1.length := by
    rw [byTimestamp, List.length_mergeSort, List.length_map]
  by_cases hover : maxEntries < (byTimestamp ts db1).length
  · rw [if_pos hover]
    set l := (byTimestamp ts db1).take ((byTimestamp ts db1).length - maxEntries)
      with hl
    have hperm : (byTimestamp ts db1).Perm (db1.map Prod.snd) :=
      List.mergeSort_perm _ _
    have hkeys : ((byTimestamp ts db1).map key).Nodup := by
      have h1 : (db1.map Prod.snd).map key = db1.map Prod.fst := by
        rw [List.map_map]
        exact List.map_congr_left fun p hp => (hwf1.2 p hp).symm
      have h2 : ((byTimestamp ts db1).map key).Perm (db1.map Prod.fst) := by
        rw [← h1]
        exact hperm.map key
      exact h2.symm.nodup hwf1.1
    have hlk : (l.map key).Nodup := by
      rw [hl, List.map_take]
      exact hkeys.sublist (List.take_sublist _ _)
    have hsubk : ∀ e ∈ l, key e ∈ db1.map Prod.fst := by
      intro e he
      have he1 : e ∈ byTimestamp ts db1 := List.mem_of_mem_take he
      have he2 : e ∈ db1.map Prod.snd := List.mem_mergeSort.mp he1
      obtain ⟨p, hp, hpf⟩ := List.mem_map.mp he2
      have : key e = p.1 := by rw [← hpf]; exact (hwf1.2 p hp).symm
      rw [this]
      exact List.mem_map_of_mem Prod.fst hp
    have hlenl : l.length = (byTimestamp ts db1).length - maxEntries := by
      rw [hl, List.length_take]
      omega
    have hfin := foldl_delete_length key l db1 hwf1.1 hlk hsubk
    have hsubl := foldl_delete_sublist key l db1
    refine ⟨?_, fun p hp => hage p (hsubl.subset hp), cacheWF_sublist key hsubl hwf1⟩
    rw [hfin, hlenl, hlen1]
    omega
  · rw [if_neg hover]
    refine ⟨?_, hage, hwf1⟩
    rw [hlen1] at hover
    omega

/-- C8 — Cache eviction invariant: after every completed put
(`cacheMediaBlob` / `cacheAudioBlob`) on a well-formed store, the
cleanup pass leaves at most the kind's max count of entries (50 media,
100 audio), none older than the kind's max age (30 days media, 7 days
audio). -/
theorem cache_eviction_invariant :
    (∀ (db : CacheDb MediaCacheEntry) (now : Nat)
        (prompt mediaBlob model : String) (duration : Nat) (mediaType : String),
      CacheWF MediaCacheEntry.key db →
        (cacheMediaBlob db now prompt mediaBlob model duration mediaType).length
            ≤ MEDIA_MAX_CACHE_ENTRIES ∧
          ∀ p ∈ cacheMediaBlob db now prompt mediaBlob model duration mediaType,
            now - p.2.timestamp ≤ MEDIA_MAX_CACHE_AGE_MS) ∧
    (∀ (db : CacheDb AudioCacheEntry) (now : Nat)
        (text audioBlob voiceURI : String) (speed : ℚ) (provider : String),
      CacheWF AudioCacheEntry.key db →
        (cacheAudioBlob db now text audioBlob voiceURI speed provider).length
            ≤ AUDIO_MAX_CACHE_ENTRIES ∧
          ∀ p ∈ cacheAudioBlob db now text audioBlob voiceURI speed provider,
            now - p.2.timestamp ≤ AUDIO_MAX_CACHE_AGE_MS) := by
  constructor
  · intro db now prompt mediaBlob model duration mediaType hwf
    have hput : CacheWF MediaCacheEntry.key
        (dbPut db (generateMediaCacheKey prompt model duration mediaType)
          ⟨prompt, mediaBlob, model, duration, now, mediaType⟩) :=
      cacheWF_dbPut _ db _ _ rfl hwf
    have h := cleanupCacheG_invariant MediaCacheEntry.key
      MediaCacheEntry.timestamp MEDIA_MAX_CACHE_AGE_MS MEDIA_MAX_CACHE_ENTRIES
      _ now hput
    exact ⟨h.1, h.2.1⟩
  · intro db now text audioBlob voiceURI speed provider hwf
    have hput : CacheWF AudioCacheEntry.key
        (dbPut db (generateAudioCacheKey text voiceURI speed provider)
          ⟨text, audioBlob, voiceURI, speed, now, provider⟩) :=
      cacheWF_dbPut _ db _ _ rfl hwf
    have h := cleanupCacheG_invariant AudioCacheEntry.key
      AudioCacheEntry.timestamp AUDIO_MAX_CACHE_AGE_MS AUDIO_MAX_CACHE_ENTRIES
      _ now hput
    exact ⟨h.1, h.2.1⟩

/-- Witness for C8: a put into an empty (well-formed) store of each kind
satisfies the count bound. -/
theorem cache_eviction_invariant_witness :
    (cacheMediaBlob [] 5 "p" "blob" "m" 0 "image").length
        ≤ MEDIA_MAX_CACHE_ENTRIES ∧
    (cacheAudioBlob [] 5 "t" "blob" "v" 1 "elevenlabs").length
        ≤ AUDIO_MAX_CACHE_ENTRIES :=
  ⟨(cache_eviction_invariant.1 [] 5 "p" "blob" "m" 0 "image"
      ⟨List.nodup_nil, by simp⟩).1,
   (cache_eviction_invariant.2 [] 5 "t" "blob" "v" 1 "elevenlabs"
      ⟨List.nodup_nil, by simp⟩).1⟩

/-- C10 — Expiry is enforced at lookup time: a stored entry whose age
exceeds the kind's max age at the moment of lookup is deleted and the
lookup reports a miss; conversely a returned payload always comes from
an entry whose age is within the kind's max age (and the store is left
unchanged). -/
theorem cache_lookup_expiry :
    (∀ (db : CacheDb MediaCacheEntry) (now : Nat) (prompt model : String)
        (duration : Nat) (mediaType : String),
      (∀ e, db.lookup (generateMediaCacheKey prompt model duration mediaType)
            = some e →
        MEDIA_MAX_CACHE_AGE_MS < now - e.timestamp →
        getCachedMediaBlob db now prompt model duration mediaType
          = (none,
              dbDelete db (generateMediaCacheKey prompt model duration mediaType))) ∧
      (∀ b db', getCachedMediaBlob db now prompt model duration mediaType
            = (some b, db') →
        ∃ e, db.lookup (generateMediaCacheKey prompt model duration mediaType)
              = some e ∧
          b = e.mediaBlob ∧ now - e.timestamp ≤ MEDIA_MAX_CACHE_AGE_MS ∧
          db' = db)) ∧
    (∀ (db : CacheDb AudioCacheEntry) (now : Nat) (text voiceURI : String)
        (speed : ℚ) (provider : String),
      (∀ e, db.lookup (generateAudioCacheKey text voiceURI speed provider)
            = some e →
        AUDIO_MAX_CACHE_AGE_MS < now - e.timestamp →
        getCachedAudioBlob db now text voiceURI speed provider
          = (none,
              dbDelete db (generateAudioCacheKey text voiceURI speed provider))) ∧
      (∀ b db', getCachedAudioBlob db now text voiceURI speed provider
            = (some b, db') →
        ∃ e, db.lookup (generateAudioCacheKey text voiceURI speed provider)
              = some e ∧
          b = e.audioBlob ∧ now - e.timestamp ≤ AUDIO_MAX_CACHE_AGE_MS ∧
          db' = db)) := by
  constructor
  · intro db now prompt model duration mediaType
    constructor
    · intro e he hexp
      unfold getCachedMediaBlob
      simp only [he, if_pos hexp]
    · intro b db' h
      unfold getCachedMediaBlob at h
      cases hk : db.lookup (generateMediaCacheKey prompt model duration mediaType) with
      | none => simp only [hk] at h; simp at h
      | some e =>
        simp only [hk] at h
        by_cases hexp : MEDIA_MAX_CACHE_AGE_MS < now - e.timestamp
        · rw [if_pos hexp] at h; simp at h
        · rw [if_neg hexp] at h
          simp only [Prod.mk.injEq, Option.some.injEq] at h
          exact ⟨e, rfl, h.1.symm, by omega, h.2.symm⟩
  · intro db now text voiceURI speed provider
    constructor
    · intro e he hexp
      unfold getCachedAudioBlob
      simp only [he, if_pos hexp]
    · intro b db' h
      unfold getCachedAudioBlob at h
      cases hk : db.lookup (generateAudioCacheKey text voiceURI speed provider) with
      | none => simp only [hk] at h; simp at h
      | some e =>
        simp only [hk] at h
        by_cases hexp : AUDIO_MAX_CACHE_AGE_MS < now - e.timestamp
        · rw [if_pos hexp] at h; simp at h
        · rw [if_neg hexp] at h
          simp only [Prod.mk.injEq, Option.some.injEq] at h
          exact ⟨e, rfl, h.1.symm, by omega, h.2.symm⟩

/-- Witness for C10: an entry stored at time 0 and looked up just past
the media max age is deleted and reported as a miss. -/
theorem cache_lookup_expiry_witness :
    getCachedMediaBlob
        [(generateMediaCacheKey "p" "m" 0 "image",
          ⟨"p", "blob", "m", 0, 0, "image"⟩)]
        (MEDIA_MAX_CACHE_AGE_MS + 1) "p" "m" 0 "image"
      = (none, []) := by
  have h := (cache_lookup_expiry.1
      [(generateMediaCacheKey "p" "m" 0 "image",
        ⟨"p", "blob", "m", 0, 0, "image"⟩)]
      (MEDIA_MAX_CACHE_AGE_MS + 1) "p" "m" 0 "image").1
    ⟨"p", "blob", "m", 0, 0, "image"⟩
    (by simp)
    (by show MEDIA_MAX_CACHE_AGE_MS < MEDIA_MAX_CACHE_AGE_MS + 1 - 0; omega)
  rw [h]
  simp [dbDelete]

/-- With unique keys, two pairs sharing a key are the same pair. -/
theorem mem_unique_key {α : Type} {db : CacheDb α} {k : String} {a b : α}
    (hnd : (db.map Prod.fst).Nodup) (ha : (k, a) ∈ db) (hb : (k, b) ∈ db) :
    a = b := by
  induction db with
  | nil => simp at ha
  | cons p db ih =>
    simp only [List.map_cons, List.nodup_cons] at hnd
    rcases List.mem_cons.mp ha with rfl | ha' <;>
      rcases List.mem_cons.mp hb with h | hb'
    · injection h with h1 h2
      exact h2.symm
    · exact absurd (List.mem_map_of_mem Prod.fst hb') (by simpa using hnd.1)
    · rw [← h] at hnd
      exact absurd (List.mem_map_of_mem Prod.fst ha') (by simpa using hnd.1)
    · exact ih hnd.2 ha' hb'

/-- With unique keys, membership determines the result of `lookup`. -/
theorem lookup_eq_some_of_mem {α : Type} {db : CacheDb α} {k : String} {e : α}
    (hnd : (db.map Prod.fst).Nodup) (hmem : (k, e) ∈ db) :
    db.lookup k = some e := by
  induction db with
  | nil => simp at hmem
  | cons p db ih =>
    simp only [List.map_cons, List.nodup_cons] at hnd
    rcases List.mem_cons.mp hmem with rfl | hmem'
    · simp [List.lookup]
    · have hne : k ≠ p.1 := by
        intro h
        exact hnd.1 (h ▸ List.mem_map_of_mem Prod.fst hmem')
      cases p with
      | mk k' e' =>
        have hbeq : (k == k') = false := beq_eq_false_iff_ne.mpr hne
        simp only [List.lookup, hbeq]
        exact ih hnd.2 hmem'

/-- A freshly written entry survives the post-put cleanup when the store
was strictly below the count budget, and is then found under its key. -/
theorem cacheMediaBlob_lookup_fresh (db : CacheDb MediaCacheEntry) (now : Nat)
    (prompt blob model : String) (duration : Nat) (mediaType : String)
    (hwf : CacheWF MediaCacheEntry.key db)
    (hlen : db.length < MEDIA_MAX_CACHE_ENTRIES) :
    (cacheMediaBlob db now prompt blob model duration mediaType).lookup
        (generateMediaCacheKey prompt model duration mediaType)
      = some ⟨prompt, blob, model, duration, now, mediaType⟩ := by
  set k := generateMediaCacheKey prompt model duration mediaType with hk
  set entry : MediaCacheEntry := ⟨prompt, blob, model, duration, now, mediaType⟩
    with hentry
  show (cleanupCacheG MediaCacheEntry.key MediaCacheEntry.timestamp
      MEDIA_MAX_CACHE_AGE_MS MEDIA_MAX_CACHE_ENTRIES
      (dbPut db k entry) now).lookup k = some entry
  have hput : CacheWF MediaCacheEntry.key (dbPut db k entry) :=
    cacheWF_dbPut _ db _ _ (by rw [hentry]; rfl) hwf
  have hputlen : (dbPut db k entry).length ≤ db.length + 1 := by
    rw [dbPut, List.length_append]
    have := (List.filter_sublist (p := fun p => decide (p.1 ≠ k)) db).length_le
    simp only [List.length_cons, List.length_nil]
    omega
  have hrw := foldl_cond_delete_eq_filter MediaCacheEntry.key
    (fun e => MEDIA_MAX_CACHE_AGE_MS < now - e.timestamp)
    (byTimestamp MediaCacheEntry.timestamp (dbPut db k entry)) (dbPut db k entry)
  unfold cleanupCacheG
  simp only [hrw]
  set db1 := (dbPut db k entry).filter
    (fun p => decide (¬ ∃ e ∈ byTimestamp MediaCacheEntry.timestamp
        (dbPut db k entry),
      MEDIA_MAX_CACHE_AGE_MS < now - e.timestamp ∧ p.1 = MediaCacheEntry.key e))
    with hdb1
  have hmemput : (k, entry) ∈ dbPut db k entry := by
    rw [dbPut]
    exact List.mem_append.mpr (Or.inr (by simp))
  have hmem1 : (k, entry) ∈ db1 := by
    rw [hdb1]
    refine List.mem_filter.mpr ⟨hmemput, ?_⟩
    rw [decide_eq_true_eq]
    rintro ⟨e, hein, hage, hkey⟩
    have hvals : e ∈ (dbPut db k entry).map Prod.snd :=
      List.mem_mergeSort.mp hein
    obtain ⟨p, hp, hpe⟩ := List.mem_map.mp hvals
    have hp1 : p.1 = MediaCacheEntry.key p.2 := hput.2 p hp
    have hpk : p = (k, p.2) := by
      cases p with
      | mk p1 p2 => simp only [Prod.mk.injEq, and_true]
                    
                    show p1 = k
                    rw [show p1 = MediaCacheEntry.key p2 from hp1,
                      show p2 = e from hpe]
                    exact hkey.symm
    have he : p.2 = entry := mem_unique_key hput.1 (hpk ▸ hp) hmemput
    rw [hpe] at he
    rw [he] at hage
    simp [hentry, MediaCacheEntry.timestamp] at hage
  have hlen1 : db1.length ≤ MEDIA_MAX_CACHE_ENTRIES := by
    have := (List.filter_sublist (l := dbPut db k entry)
      (p := fun p => decide (¬ ∃ e ∈ byTimestamp MediaCacheEntry.timestamp
          (dbPut db k entry),
        MEDIA_MAX_CACHE_AGE_MS < now - e.timestamp
          ∧ p.1 = MediaCacheEntry.key e))).length_le
    rw [← hdb1] at this
    omega
  have hwf1 : CacheWF MediaCacheEntry.key db1 := by
    rw [hdb1]
    exact cacheWF_filter _ _ _ hput
  have hcond : ¬ (MEDIA_MAX_CACHE_ENTRIES <
      (byTimestamp MediaCacheEntry.timestamp db1).length) := by
    rw [byTimestamp, List.length_mergeSort, List.length_map]
    omega
  rw [if_neg hcond]
  exact lookup_eq_some_of_mem hwf1.1 hmem1

/-- C2 — Fallback chain determinism: when the primary (Gemini) image
provider fails and the secondary (FAL) provider succeeds for the same
turn, the segment image is exactly the secondary's payload (as a data
URL), that payload is cached under the fingerprint derived from the
original request's prompt, and a later retry of the same request (the
primary failing again) is served from the cache with zero provider
invocations, returning the same payload. -/
theorem fallback_chain_determinism
    (gemini gemini2 : Except JsError String) (g g2 : JsError)
    (falOp falOp2 : Nat → Except JsError String) (rand rand2 : Nat → ℚ)
    (db : CacheDb MediaCacheEntry) (now now2 : Nat) (prompt blob : String)
    (hg : gemini = .error g) (hg2 : gemini2 = .error g2)
    (hok : falOp 0 = .ok blob)
    (hmiss : db.lookup (mediaFingerprint prompt) = none)
    (hwf : CacheWF MediaCacheEntry.key db)
    (hlen : db.length < MEDIA_MAX_CACHE_ENTRIES)
    (hage : now2 - now ≤ MEDIA_MAX_CACHE_AGE_MS) :
    staticImageAttempt gemini true true falOp rand db now prompt =
      ⟨dataUrl blob,
       cacheMediaBlob db now (falEnhanceFallbackPrompt prompt) blob
         "fal-ai/flux/dev" 0 "image",
       1, some "Image generated using fal.ai fallback (Gemini failed)"⟩ ∧
    (cacheMediaBlob db now (falEnhanceFallbackPrompt prompt) blob
        "fal-ai/flux/dev" 0 "image").lookup (mediaFingerprint prompt)
      = some ⟨falEnhanceFallbackPrompt prompt, blob, "fal-ai/flux/dev",
          0, now, "image"⟩ ∧
    staticImageAttempt gemini2 true true falOp2 rand2
        (cacheMediaBlob db now (falEnhanceFallbackPrompt prompt) blob
          "fal-ai/flux/dev" 0 "image") now2 prompt =
      ⟨dataUrl blob,
       cacheMediaBlob db now (falEnhanceFallbackPrompt prompt) blob
         "fal-ai/flux/dev" 0 "image",
       0, some "Image generated using fal.ai fallback (Gemini failed)"⟩ := by
  rw [mediaFingerprint] at hmiss
  have hget : getCachedMediaBlob db now (falEnhanceFallbackPrompt prompt)
      "fal-ai/flux/dev" 0 "image" = (none, db) := by
    unfold getCachedMediaBlob
    simp only [hmiss]
  have hretry : retryWithExponentialBackoff FAL_RETRY_CONFIG falOp rand =
      ⟨.ok blob, 1, []⟩ := by
    unfold retryWithExponentialBackoff
    show retryGo FAL_RETRY_CONFIG falOp rand 0 3 = _
    simp [retryGo, hok]
  have hfb : generateFallbackImage true falOp rand db now prompt =
      ⟨.ok (dataUrl blob),
       cacheMediaBlob db now (falEnhanceFallbackPrompt prompt) blob
         "fal-ai/flux/dev" 0 "image", 1⟩ := by
    unfold generateFallbackImage
    simp only [not_true_eq_false, if_false, hget, hretry]
  have hfresh := cacheMediaBlob_lookup_fresh db now
    (falEnhanceFallbackPrompt prompt) blob "fal-ai/flux/dev" 0 "image" hwf hlen
  refine ⟨?_, hfresh, ?_⟩
  · rw [hg]
    unfold staticImageAttempt
    simp only [Bool.and_self, if_true, hfb]
  · have hget2 : getCachedMediaBlob
        (cacheMediaBlob db now (falEnhanceFallbackPrompt prompt) blob
          "fal-ai/flux/dev" 0 "image") now2 (falEnhanceFallbackPrompt prompt)
        "fal-ai/flux/dev" 0 "image" =
        (some blob,
         cacheMediaBlob db now (falEnhanceFallbackPrompt prompt) blob
           "fal-ai/flux/dev" 0 "image") := by
      unfold getCachedMediaBlob
      simp only [hfresh]
      rw [if_neg]
      show ¬ (MEDIA_MAX_CACHE_AGE_MS < now2 - now)
      omega
    have hfb2 : generateFallbackImage true falOp2 rand2
        (cacheMediaBlob db now (falEnhanceFallbackPrompt prompt) blob
          "fal-ai/flux/dev" 0 "image") now2 prompt =
        ⟨.ok (dataUrl blob),
         cacheMediaBlob db now (falEnhanceFallbackPrompt prompt) blob
           "fal-ai/flux/dev" 0 "image", 0⟩ := by
      unfold generateFallbackImage
      simp only [not_true_eq_false, if_false, hget2]
    rw [hg2]
    unfold staticImageAttempt
    simp only [Bool.and_self, if_true, hfb2]

/-- Witness for C2 at a concrete scenario: empty cache, Gemini failing,
FAL returning payload `"img"`. -/
theorem fallback_chain_determinism_witness :
    staticImageAttempt (.error ⟨"Error", "boom"⟩) true true
        (fun _ => .ok "img") (fun _ => 0) [] 7 "a lion" =
      ⟨dataUrl "img",
       cacheMediaBlob [] 7 (falEnhanceFallbackPrompt "a lion") "img"
         "fal-ai/flux/dev" 0 "image",
       1, some "Image generated using fal.ai fallback (Gemini failed)"⟩ :=
  (fallback_chain_determinism (.error ⟨"Error", "boom"⟩)
    (.error ⟨"Error", "boom"⟩) ⟨"Error", "boom"⟩ ⟨"Error", "boom"⟩
    (fun _ => .ok "img") (fun _ => .ok "img") (fun _ => 0) (fun _ => 0)
    [] 7 7 "a lion" "img" rfl rfl rfl rfl
    ⟨List.nodup_nil, by simp⟩ (by norm_num [MEDIA_MAX_CACHE_ENTRIES])
    (by norm_num)).1

set_option maxRecDepth 8192 in
/-- C1 — Storage degradation round-trip FAILS on the code: with a
simulated capacity of 260, the verbose serialization (297 chars) is
rejected and `saveStoryProgress` does succeed by writing the compressed
encoding (175 chars); but the compressed encoding is itself valid JSON,
so on load the direct `JSON.parse` *succeeds* with the compressed shape
and the decompress branch (which only runs if parsing throws) is never
taken: the state handed back has no `segments` field at all — the one
saved segment (and its narrative text) sits unread under the compressed
key `s`.  This contradicts the spec's "load must transparently accept
either the verbose or compressed encoding". -/
theorem storage_degradation_loses_segments :
    260 < (Jval.jobj (setEntry [] "daniel"
        (progressToJson c1Progress))).stringify.length ∧
    (compressProgressData (setEntry [] "daniel"
        (progressToJson c1Progress))).stringify.length ≤ 260 ∧
    saveStoryProgress none 260 5 "daniel" c1Input
      = some (compressProgressData (setEntry [] "daniel"
          (progressToJson c1Progress))).stringify ∧
    c1Input.segments.length = 1 ∧
    (loadStoryProgress (saveStoryProgress none 260 5 "daniel" c1Input)
        6 "daniel").map (fun j => jLookup j "segments") = some none ∧
    (loadStoryProgress (saveStoryProgress none 260 5 "daniel" c1Input)
        6 "daniel").map (fun j =>
          match jLookup j "s" with
          | some (.jarr xs) => xs.length
          | _ => 0) = some 1 := by
  refine ⟨by decide, by decide, rfl, rfl, rfl, rfl⟩

/-- C9 — Turn re-entrancy: invoking `fetchNextSegment` while a previous
invocation is still pending (guard flag set) returns before mutating
any session state and makes no provider call. -/
theorem turn_reentrancy_noop (storyId : String)
    (zones : List EnvironmentZone) (now : Nat) (prompt : String)
    (s : PlayerState) (outcome : Except JsError RawStoryResponse)
    (hbusy : s.isGenerating = true) :
    fetchNextSegment storyId zones now prompt s outcome = ⟨s, 0, []⟩ := by
  unfold fetchNextSegment
  rw [if_pos hbusy]

/-- Witness for C9 at a concrete pending state. -/
theorem turn_reentrancy_noop_witness :
    fetchNextSegment "daniel" [] 5 "continue"
        ⟨[], true, ["Pray"], ["PROMPT: begin"], 1, "den", false, true⟩
        (.error ⟨"Error", "x"⟩)
      = ⟨⟨[], true, ["Pray"], ["PROMPT: begin"], 1, "den", false, true⟩, 0, []⟩ :=
  turn_reentrancy_noop "daniel" [] 5 "continue"
    ⟨[], true, ["Pray"], ["PROMPT: begin"], 1, "den", false, true⟩
    (.error ⟨"Error", "x"⟩) rfl

/-- C6 — Clip-attempt gating: the detached media task invokes the clip
provider exactly once if and only if the narrative flagged the scene as
important, the paid FAL feature is enabled, the per-session usage
counter is strictly below its limit, the FAL provider is configured,
and fewer than 2 clips have been generated for the current story. -/
theorem clip_attempt_gating (response : GeminiStoryResponse)
    (falSettings : FalSettings) (falConfigured : Bool)
    (gifGeneratedCount : Nat) (clipOutcome : Except JsError String) :
    (clipStep response falSettings falConfigured gifGeneratedCount
        clipOutcome).clipCalls = 1 ↔
      (response.isImportantScene = true ∧ falSettings.enabled = true ∧
       falSettings.currentSessionCount < falSettings.sessionLimit ∧
       falConfigured = true ∧ gifGeneratedCount < 2) := by
  unfold clipStep
  by_cases hg : shouldGenerateGif response falSettings falConfigured
      gifGeneratedCount = true
  · rw [if_pos hg]
    unfold shouldGenerateGif at hg
    simp only [Bool.and_eq_true, decide_eq_true_eq] at hg
    cases clipOutcome <;>
      simp only [true_iff] <;>
      exact ⟨hg.1.1.1.1, hg.1.1.1.2, hg.1.1.2, hg.1.2, hg.2⟩
  · rw [if_neg hg]
    unfold shouldGenerateGif at hg
    simp only [Bool.and_eq_true, decide_eq_true_eq] at hg
    constructor
    · intro h
      exact absurd h (by norm_num)
    · intro h
      exact absurd ⟨⟨⟨⟨h.1, h.2.1⟩, h.2.2.1⟩, h.2.2.2.1⟩, h.2.2.2.2⟩ hg

/-- The marker count is the number of fixed phrases present. -/
theorem repetitiveCount_eq_countP (narrative : String) :
    repetitiveCount narrative = repetitivePhrases.countP
      (fun phrase => strIncludes (strToLower narrative) (strToLower phrase)) := by
  unfold repetitiveCount
  have haux : ∀ (l : List String) (acc : Nat),
      l.foldl (fun count phrase =>
        count + if strIncludes (strToLower narrative) (strToLower phrase) then 1 else 0) acc
        = acc + l.countP (fun phrase => strIncludes (strToLower narrative) (strToLower phrase)) := by
    intro l
    induction l with
    | nil => intro acc; simp
    | cons p l ih =>
      intro acc
      rw [List.foldl_cons, ih, List.countP_cons]
      by_cases h : strIncludes (strToLower narrative) (strToLower p) = true
      · simp only [h, if_true]
        omega
      · simp only [h, if_false]
        omega
  rw [haux]
  omega

/-- C4 — Context purity of the narrative fallback: a provider failure
makes `generateStorySegment` return a flagged degraded response — an
apologetic narrative and the single choice `"Try again..."` — instead
of throwing; the turn loop renders it but pops the failed prompt, so
the stored story history (and hence the context joined for the next
prompt) is exactly what it was before the failed attempt. -/
theorem context_purity_fallback (storyId : String)
    (zones : List EnvironmentZone) (now : Nat) (prompt : String)
    (s : PlayerState) (e : JsError)
    (hidle : s.isGenerating = false) :
    (generateStorySegment (.error e)).isFallback = true ∧
    (generateStorySegment (.error e)).choices = ["Try again..."] ∧
    ((generateStorySegment (.error e)).narrative = quotaFallbackNarrative ∨
      (generateStorySegment (.error e)).narrative = genericFallbackNarrative) ∧
    (fetchNextSegment storyId zones now prompt s (.error e)).state.storyHistory
      = s.storyHistory ∧
    nextPromptContext
        (fetchNextSegment storyId zones now prompt s (.error e)).state
      = nextPromptContext s ∧
    (fetchNextSegment storyId zones now prompt s (.error e)).state.segments
      = s.segments ++
        [{ type := "narrator",
           text := (generateStorySegment (.error e)).narrative,
           isLoadingImage := some false }] ∧
    (fetchNextSegment storyId zones now prompt s (.error e)).state.choices
      = ["Try again..."] ∧
    (fetchNextSegment storyId zones now prompt s (.error e)).saves = [] := by
  have hnarr : (generateStorySegment (.error e)).narrative
      = quotaFallbackNarrative ∨
      (generateStorySegment (.error e)).narrative = genericFallbackNarrative := by
    unfold generateStorySegment
    by_cases h : (strIncludes e.message "RESOURCE_EXHAUSTED"
        || strIncludes e.message "quota") = true
    · left; simp only [h]; rfl
    · right
      simp only [Bool.not_eq_true] at h
      simp only [h]; rfl
  have hstep : fetchNextSegment storyId zones now prompt s (.error e)
      = ⟨{ s with
            isGenerating := false, isLoading := false,
            choices := ["Try again..."],
            storyHistory := (s.storyHistory ++ ["PROMPT: " ++ prompt]).dropLast,
            segments := s.segments ++
              [{ type := "narrator",
                 text := (generateStorySegment (.error e)).narrative,
                 isLoadingImage := some false }] }, 1, []⟩ := by
    unfold fetchNextSegment
    rw [if_neg (by rw [hidle]; exact Bool.false_ne_true)]
    rfl
  rw [hstep]
  refine ⟨rfl, rfl, hnarr, ?_, ?_, rfl, rfl, rfl⟩
  · exact List.dropLast_concat ..
  · unfold nextPromptContext
    rw [List.dropLast_concat]

/-- Witness for C4: after a failed attempt the history is exactly the
prior successful exchanges. -/
theorem context_purity_fallback_witness :
    (fetchNextSegment "daniel" [] 5 "continue the story"
        ⟨[], false, [], ["PROMPT: begin", "RESPONSE: ok"], 1, "den",
          false, false⟩
        (.error ⟨"Error", "network down"⟩)).state.storyHistory
      = ["PROMPT: begin", "RESPONSE: ok"] :=
  (context_purity_fallback "daniel" [] 5 "continue the story"
    ⟨[], false, [], ["PROMPT: begin", "RESPONSE: ok"], 1, "den",
      false, false⟩
    ⟨"Error", "network down"⟩ rfl).2.2.2.1

/-- C5 — Loop detection forces completion: with three or more distinct
markers of the fixed set present in the narrative (case-insensitively),
the turn loop shows the completion modal and persists the session with
`isCompleted = true` even when the provider's `isComplete` flag is
false; with fewer than three markers and `isComplete` false, completion
is not forced. -/
theorem loop_detection_forces_completion (storyId : String)
    (zones : List EnvironmentZone) (now : Nat) (prompt : String)
    (s : PlayerState) (raw : RawStoryResponse)
    (hidle : s.isGenerating = false) :
    (3 ≤ repetitivePhrases.countP (fun phrase =>
        strIncludes (strToLower (generateStorySegment (.ok raw)).narrative)
          (strToLower phrase)) →
      (fetchNextSegment storyId zones now prompt s
          (.ok raw)).state.showCompletionModal = true ∧
      ∃ p, (fetchNextSegment storyId zones now prompt s (.ok raw)).saves
            = [(storyId, p)] ∧
        p.isCompleted = true ∧ p.completionDate = some now) ∧
    (repetitivePhrases.countP (fun phrase =>
        strIncludes (strToLower (generateStorySegment (.ok raw)).narrative)
          (strToLower phrase)) < 3 →
      (generateStorySegment (.ok raw)).isComplete = false →
      (fetchNextSegment storyId zones now prompt s
          (.ok raw)).state.showCompletionModal = s.showCompletionModal ∧
      (fetchNextSegment storyId zones now prompt s (.ok raw)).saves = []) := by
  have hfb : (generateStorySegment (.ok raw)).isFallback = false := rfl
  constructor
  · intro h3
    have hdet : detectRepetitiveContent
        (generateStorySegment (.ok raw)).narrative = true := by
      unfold detectRepetitiveContent
      rw [repetitiveCount_eq_countP]
      exact decide_eq_true h3
    have hcond : ((generateStorySegment (.ok raw)).isComplete
        || detectRepetitiveContent (generateStorySegment (.ok raw)).narrative)
        = true := by
      rw [hdet]
      exact Bool.or_true _
    constructor
    · simp [fetchNextSegment, hidle, hfb, hcond]
    · have hsv : (fetchNextSegment storyId zones now prompt s (.ok raw)).saves
          = [(storyId,
             { segments := s.segments ++
                 [{ type := "narrator",
                    text := (generateStorySegment (.ok raw)).narrative,
                    isLoadingImage := some true }],
               currentChoices := [],
               storyHistory := s.storyHistory ++ ["PROMPT: " ++ prompt]
                 ++ ["RESPONSE: "
                     ++ (geminiResponseToJson
                          (generateStorySegment (.ok raw))).stringify],
               userChoiceCount := s.userChoiceCount,
               isCompleted := true,
               completionDate := some now,
               currentEnvironment := s.currentEnvironment })] := by
        simp [fetchNextSegment, hidle, hfb, hcond]
      exact ⟨_, hsv, rfl, rfl⟩
  · intro hlt hic
    have hdet : detectRepetitiveContent
        (generateStorySegment (.ok raw)).narrative = false := by
      unfold detectRepetitiveContent
      rw [repetitiveCount_eq_countP]
      exact decide_eq_false (by omega)
    have hcond : ((generateStorySegment (.ok raw)).isComplete
        || detectRepetitiveContent (generateStorySegment (.ok raw)).narrative)
        = false := by
      rw [hic, hdet]
      rfl
    constructor
    · simp [fetchNextSegment, hidle, hfb, hcond]
    · simp [fetchNextSegment, hidle, hfb, hcond]

/-- Witness for C5: a narrative carrying three of the fixed markers
forces the completion modal even though `isComplete` is false. -/
theorem loop_detection_forces_completion_witness :
    (fetchNextSegment "daniel" [] 5 "continue"
        ⟨[], false, [], [], 1, "den", false, false⟩
        (.ok ⟨"What is your final choice? The story is complete. The story is done.",
          "img", some ["A"], none, some false, none⟩)).state.showCompletionModal
      = true :=
  ((loop_detection_forces_completion "daniel" [] 5 "continue"
    ⟨[], false, [], [], 1, "den", false, false⟩
    ⟨"What is your final choice? The story is complete. The story is done.",
      "img", some ["A"], none, some false, none⟩ rfl).1 (by decide)).1
